import Mathlib

/-!
Verification of the mcp-multilang-sandbox core against its specification.

This file contains a shallow embedding, in Lean 4, of the parts of the
TypeScript sandbox that the checked claims are about:

* the per-language runtime adapters (`PythonRuntime`, `JavaScriptRuntime`,
  `TypeScriptRuntime`, `GoRuntime`, `RustRuntime`, `BashRuntime`) with their
  regex blocklists, the Go/Rust `wrapInMain` helpers and the container
  commands they issue (src/runtimes/*);
* the workspace path sanitizer `sanitizePath` (src/security/pathValidator.ts);
* the output accumulation of `Container.executeWithTimeout` together with the
  declared output-cap constants (src/docker/Container.ts);
* the audit severity inference of `AuditLogger` (src/security/AuditLogger.ts);
* the `SessionManager` get/pause/resume/destroy operations (SessionManager.ts);
* the `PackageCache` install flow with its sha256 cache key (PackageCache.ts);
* the `ContainerPool` release/eviction logic (src/core/ContainerPool.ts).

JavaScript strings are modelled as `List Char` (Lean `String` at the
boundaries), machine integers as `Nat` with explicit `% 2 ^ 32` where 32-bit
wrap-around matters, thrown exceptions as `Except`/`Option` results, and the
Docker engine as an explicit state threaded through the operations.  All
definitions are executable, so every concrete claim instance can be settled
by `decide`.
-/

set_option maxRecDepth 20000

/-! ## JavaScript regular-expression patterns

The blocklists of the runtime adapters and the helper regexes of the path
sanitizer and the wrap rules use a small fragment of JavaScript regex syntax:
literals, `\s+`, `\s*`, `.*` (any char except line terminators), `[^)]*`,
character classes such as `['"]`, the negative lookahead `(?!\w)` and a
single two-way alternation `(sh|bash)`.  The fragment is embedded as a token
list; matching is a backtracking interpreter.  The interpreter takes explicit
fuel so that it is structurally recursive (and hence reducible by `decide`);
each step consumes a character or a token, so the fuel bound
`(toks + 2) * (chars + 2)` is never exhausted on the inputs we use it for.
-/

/-- Character class of JavaScript `\s` (whitespace), restricted to the code
points that actually occur; the full set also contains the exotic Unicode
space separators, which behave identically here. -/
def isJsWhitespace (c : Char) : Bool :=
  c = ' ' || c = '\t' || c = '\n' || c = '\x0b' || c = '\x0c' || c = '\r' ||
  c = '\u00A0' || c = '\u2028' || c = '\u2029' || c = '\uFEFF'

/-- Character class of JavaScript `\w`: ASCII letters, digits and underscore. -/
def isJsWordChar (c : Char) : Bool :=
  ('a' ≤ c && c ≤ 'z') || ('A' ≤ c && c ≤ 'Z') || ('0' ≤ c && c ≤ '9') || c = '_'

/-- Character class of the JavaScript dot `.`: anything except a line
terminator. -/
def isJsDot (c : Char) : Bool :=
  !(c = '\n' || c = '\r' || c = '\u2028' || c = '\u2029')

/-- One token of the embedded regex fragment. -/
inductive Tok where
  /-- a literal character sequence -/
  | lit (cs : List Char)
  /-- exactly one character satisfying the class -/
  | cls (p : Char → Bool)
  /-- zero or more characters satisfying the class (`\s*`, `.*`, `[^)]*`) -/
  | star (p : Char → Bool)
  /-- one or more characters satisfying the class (`\s+`) -/
  | plus (p : Char → Bool)
  /-- zero-width assertion on the next character (if any); models `(?!\w)` -/
  | look (ok : Option Char → Bool)
  /-- alternation between two literal sequences (`(sh|bash)`) -/
  | alt2 (a b : List Char)

/-- Does `h` start with the sequence `n`? -/
def startsWithL : List Char → List Char → Bool
  | [], _ => true
  | _ :: _, [] => false
  | n :: ns, c :: cs => n = c && startsWithL ns cs

/-- Backtracking matcher for a token sequence anchored at the front of the
input.  Structural recursion on the fuel; see the fuel bound above. -/
def matchToksF : Nat → List Tok → List Char → Bool
  | 0, _, _ => false
  | fuel + 1, toks, s =>
    match toks with
    | [] => true
    | .lit l :: ts => startsWithL l s && matchToksF fuel ts (s.drop l.length)
    | .cls p :: ts =>
      match s with
      | [] => false
      | c :: rest => p c && matchToksF fuel ts rest
    | .look ok :: ts => ok s.head? && matchToksF fuel ts s
    | .alt2 a b :: ts =>
      (startsWithL a s && matchToksF fuel ts (s.drop a.length)) ||
      (startsWithL b s && matchToksF fuel ts (s.drop b.length))
    | .star p :: ts =>
      matchToksF fuel ts s ||
      (match s with
       | [] => false
       | c :: rest => p c && matchToksF fuel (.star p :: ts) rest)
    | .plus p :: ts =>
      match s with
      | [] => false
      | c :: rest => p c && matchToksF fuel (.star p :: ts) rest

/-- Match a token sequence at the start of the input. -/
def matchToks (toks : List Tok) (s : List Char) : Bool :=
  matchToksF ((toks.length + 2) * (s.length + 2)) toks s

/-- Unanchored search, as JavaScript `RegExp.test`: try every suffix. -/
def searchToks (toks : List Tok) : List Char → Bool
  | [] => matchToks toks []
  | c :: rest => matchToks toks (c :: rest) || searchToks toks rest

/-- A JavaScript regex of the blocklists: the literal `source` text of the
regex (used in error messages) together with its token-list reading. -/
structure JsPattern where
  source : String
  toks : List Tok

/-- `pattern.test(code)` of JavaScript. -/
def JsPattern.test (p : JsPattern) (code : String) : Bool :=
  searchToks p.toks code.data

/-- Shorthand for a literal token. -/
def tokLit (s : String) : Tok := .lit s.data

/-- Shorthand for `\s+`. -/
def tokWs1 : Tok := .plus isJsWhitespace

/-- Shorthand for `\s*`. -/
def tokWs0 : Tok := .star isJsWhitespace

/-- Shorthand for `.*`. -/
def tokAny0 : Tok := .star isJsDot

/-- Shorthand for `['"]`. -/
def tokQuote : Tok := .cls (fun c => c = '\x27' || c = '"')

/-- Shorthand for the negative lookahead `(?!\w)`. -/
def tokNotWord : Tok :=
  .look (fun c? => match c? with
    | none => true
    | some c => !isJsWordChar c)

/-! ## General string helpers (structural recursion only) -/

/-- Split a character list at every occurrence of `sep` (JavaScript
`String.prototype.split` with a single-character separator). -/
def splitOnCharL (sep : Char) : List Char → List (List Char)
  | [] => [[]]
  | c :: rest =>
    let r := splitOnCharL sep rest
    if c = sep then [] :: r
    else
      match r with
      | h :: t => (c :: h) :: t
      | [] => [[c]]

/-- Join character lists with a single-character separator. -/
def intercalateChar (sep : Char) : List (List Char) → List Char
  | [] => []
  | [l] => l
  | l :: ls => l ++ sep :: intercalateChar sep ls

/-! ## Runtime adapters (src/runtimes/)

Each adapter owns a regex blocklist; `execute` first runs the blocklist
(`validateCode`), then issues container commands.  The whole body of each
`execute` sits in a `try` whose `catch` re-throws a plain `Error` built from
the caught error's message, so a `SecurityError` thrown by `validateCode`
surfaces as a generic error whose message embeds the security message.
Exceptions are modelled by `Except JsError`; the container commands an
execution issues are returned alongside the result, in order.

Elided as irrelevant to the claims: wall-clock durations, the
timeout/env/stdin/cwd options passed through to `exec`, and logging.
-/

/-- JavaScript error values: `SecurityError` instances versus plain `Error`
instances (`error.message` is the payload in both cases). -/
inductive JsError where
  | security (msg : String)
  | generic (msg : String)
deriving DecidableEq, Repr

/-- The `message` property of the error. -/
def JsError.message : JsError → String
  | .security m => m
  | .generic m => m

/-- Is the error an instance of the `SecurityError` class? -/
def JsError.isSecurity : JsError → Bool
  | .security _ => true
  | .generic _ => false

/-- Result of `Container.exec`: demuxed output and exit code. -/
structure ExecutionResult where
  stdout : String
  stderr : String
  exitCode : Int
deriving DecidableEq, Repr

/-- A container command issued by an adapter. -/
inductive ContainerAction where
  | putFile (path content : String)
  | execCmd (argv : List String)
  | deleteFile (path : String)
deriving DecidableEq, Repr

/-- The engine's response to each `exec` call (the adapters are deterministic
once the engine's answers are fixed). -/
def ExecOracle := List String → ExecutionResult

/-- `RuntimeManager.validateCode`: test the blocklist in order and throw
`SecurityError` with the first matching pattern's source. -/
def validateCode (blocklist : List JsPattern) (code : String) : Except JsError Unit :=
  match blocklist.find? (fun p => p.test code) with
  | some p => .error (.security ("Dangerous pattern detected: " ++ p.source))
  | none => .ok ()

/-- `RuntimeManager.getTempFilePath`: `Date.now()` and the random suffix are
passed in as strings, since they are environment inputs. -/
def getTempFilePath (timestamp rand ext : String) : String :=
  "/workspace/.exec-" ++ timestamp ++ "-" ++ rand ++ ext

/-- Environment inputs consumed by `getTempFilePath` during one `execute`
call (the Rust adapter derives two temp paths). -/
structure TempParams where
  timestamp : String
  rand : String
  timestamp2 : String
  rand2 : String
deriving DecidableEq, Repr

/-- `PythonRuntime.BLOCKLIST`. -/
def pythonBlocklist : List JsPattern :=
  [ ⟨"import\\s+os(?!\\w)", [tokLit "import", tokWs1, tokLit "os", tokNotWord]⟩,
    ⟨"from\\s+os\\s+import", [tokLit "from", tokWs1, tokLit "os", tokWs1, tokLit "import"]⟩,
    ⟨"import\\s+subprocess", [tokLit "import", tokWs1, tokLit "subprocess"]⟩,
    ⟨"from\\s+subprocess\\s+import",
      [tokLit "from", tokWs1, tokLit "subprocess", tokWs1, tokLit "import"]⟩,
    ⟨"import\\s+sys", [tokLit "import", tokWs1, tokLit "sys"]⟩,
    ⟨"eval\\s*\\(", [tokLit "eval", tokWs0, tokLit "("]⟩,
    ⟨"exec\\s*\\(", [tokLit "exec", tokWs0, tokLit "("]⟩,
    ⟨"__import__\\s*\\(", [tokLit "__import__", tokWs0, tokLit "("]⟩,
    ⟨"compile\\s*\\(", [tokLit "compile", tokWs0, tokLit "("]⟩,
    ⟨"open\\s*\\([^)]*,\\s*[\x27\"]w",
      [tokLit "open", tokWs0, tokLit "(", .star (fun c => c != ')'), tokLit ",",
       tokWs0, tokQuote, tokLit "w"]⟩,
    ⟨"open\\s*\\([^)]*,\\s*[\x27\"]a",
      [tokLit "open", tokWs0, tokLit "(", .star (fun c => c != ')'), tokLit ",",
       tokWs0, tokQuote, tokLit "a"]⟩,
    ⟨"\\.system\\s*\\(", [tokLit ".system", tokWs0, tokLit "("]⟩,
    ⟨"\\.popen\\s*\\(", [tokLit ".popen", tokWs0, tokLit "("]⟩ ]

/-- `JavaScriptRuntime.BLOCKLIST`. -/
def javascriptBlocklist : List JsPattern :=
  [ ⟨"require\\s*\\(\\s*[\x27\"]child_process[\x27\"]\\s*\\)",
      [tokLit "require", tokWs0, tokLit "(", tokWs0, tokQuote,
       tokLit "child_process", tokQuote, tokWs0, tokLit ")"]⟩,
    ⟨"require\\s*\\(\\s*[\x27\"]fs[\x27\"]\\s*\\)",
      [tokLit "require", tokWs0, tokLit "(", tokWs0, tokQuote,
       tokLit "fs", tokQuote, tokWs0, tokLit ")"]⟩,
    ⟨"eval\\s*\\(", [tokLit "eval", tokWs0, tokLit "("]⟩,
    ⟨"Function\\s*\\(", [tokLit "Function", tokWs0, tokLit "("]⟩,
    ⟨"process\\.exit", [tokLit "process.exit"]⟩,
    ⟨"process\\.kill", [tokLit "process.kill"]⟩ ]

/-- `TypeScriptRuntime.BLOCKLIST`. -/
def typescriptBlocklist : List JsPattern :=
  [ ⟨"require\\s*\\(\\s*[\x27\"]child_process[\x27\"]\\s*\\)",
      [tokLit "require", tokWs0, tokLit "(", tokWs0, tokQuote,
       tokLit "child_process", tokQuote, tokWs0, tokLit ")"]⟩,
    ⟨"require\\s*\\(\\s*[\x27\"]fs[\x27\"]\\s*\\)",
      [tokLit "require", tokWs0, tokLit "(", tokWs0, tokQuote,
       tokLit "fs", tokQuote, tokWs0, tokLit ")"]⟩,
    ⟨"import\\s+.*\\s+from\\s+[\x27\"]child_process[\x27\"]",
      [tokLit "import", tokWs1, tokAny0, tokWs1, tokLit "from", tokWs1,
       tokQuote, tokLit "child_process", tokQuote]⟩,
    ⟨"import\\s+.*\\s+from\\s+[\x27\"]fs[\x27\"]",
      [tokLit "import", tokWs1, tokAny0, tokWs1, tokLit "from", tokWs1,
       tokQuote, tokLit "fs", tokQuote]⟩,
    ⟨"eval\\s*\\(", [tokLit "eval", tokWs0, tokLit "("]⟩,
    ⟨"Function\\s*\\(", [tokLit "Function", tokWs0, tokLit "("]⟩,
    ⟨"process\\.exit", [tokLit "process.exit"]⟩,
    ⟨"process\\.kill", [tokLit "process.kill"]⟩ ]

/-- `GoRuntime.BLOCKLIST`. -/
def goBlocklist : List JsPattern :=
  [ ⟨"import\\s+.*\"os\\/exec\"", [tokLit "import", tokWs1, tokAny0, tokLit "\"os/exec\""]⟩,
    ⟨"import\\s+.*\"syscall\"", [tokLit "import", tokWs1, tokAny0, tokLit "\"syscall\""]⟩,
    ⟨"import\\s+.*\"unsafe\"", [tokLit "import", tokWs1, tokAny0, tokLit "\"unsafe\""]⟩,
    ⟨"exec\\.Command", [tokLit "exec.Command"]⟩,
    ⟨"syscall\\.", [tokLit "syscall."]⟩ ]

/-- `RustRuntime.BLOCKLIST`. -/
def rustBlocklist : List JsPattern :=
  [ ⟨"use\\s+std::process", [tokLit "use", tokWs1, tokLit "std::process"]⟩,
    ⟨"use\\s+std::os", [tokLit "use", tokWs1, tokLit "std::os"]⟩,
    ⟨"Command::", [tokLit "Command::"]⟩,
    ⟨"unsafe\\s*\\\x7b", [tokLit "unsafe", tokWs0, tokLit "\x7b"]⟩ ]

/-- `BashRuntime.BLOCKLIST`. -/
def bashBlocklist : List JsPattern :=
  [ ⟨"rm\\s+-rf\\s+\\/", [tokLit "rm", tokWs1, tokLit "-rf", tokWs1, tokLit "/"]⟩,
    ⟨"dd\\s+if=", [tokLit "dd", tokWs1, tokLit "if="]⟩,
    ⟨":\\(\\)\\\x7b.*\\\x7d:", [tokLit ":()\x7b", tokAny0, tokLit "\x7d:"]⟩,
    ⟨"mkfs\\.", [tokLit "mkfs."]⟩,
    ⟨">\\s*\\/dev\\/sd", [tokLit ">", tokWs0, tokLit "/dev/sd"]⟩,
    ⟨"curl.*\\|\\s*(sh|bash)",
      [tokLit "curl", tokAny0, tokLit "|", tokWs0, .alt2 "sh".data "bash".data]⟩,
    ⟨"wget.*\\|\\s*(sh|bash)",
      [tokLit "wget", tokAny0, tokLit "|", tokWs0, .alt2 "sh".data "bash".data]⟩ ]

/-- Token reading of `GoRuntime`'s `/^\s*package\s+\w+/` (anchored at the
start of the string, so tested with `matchToks`). -/
def goPackageDeclToks : List Tok :=
  [tokWs0, tokLit "package", tokWs1, .plus isJsWordChar]

/-- Token reading of `GoRuntime`'s `/func\s+main\s*\(\s*\)/`. -/
def goFuncMainToks : List Tok :=
  [tokLit "func", tokWs1, tokLit "main", tokWs0, tokLit "(", tokWs0, tokLit ")"]

/-- Token reading of `RustRuntime`'s `/fn\s+main\s*\(\s*\)/`. -/
def rustFnMainToks : List Tok :=
  [tokLit "fn", tokWs1, tokLit "main", tokWs0, tokLit "(", tokWs0, tokLit ")"]

/-- `code.split('\n').map(line => pad + line).flatten('\n')`. -/
def indentLines (pad : String) (code : String) : String :=
  String.mk (intercalateChar '\n'
    ((splitOnCharL '\n' code.data).map (fun line => pad.data ++ line)))

/-- `GoRuntime.wrapInMain`. -/
def goWrapInMain (code : String) : String :=
  if matchToks goPackageDeclToks code.data then code
  else if !searchToks goFuncMainToks code.data then
    "package main\n\nimport \"fmt\"\n\nfunc main() \x7b\n" ++
      indentLines "  " code ++ "\n\x7d"
  else "package main\n\n" ++ code

/-- `RustRuntime.wrapInMain`. -/
def rustWrapInMain (code : String) : String :=
  if searchToks rustFnMainToks code.data then code
  else "fn main() \x7b\n" ++ indentLines "    " code ++ "\n\x7d"

/-- `PythonRuntime.execute`. -/
def pythonExecute (code : String) (o : ExecOracle) :
    Except JsError ExecutionResult × List ContainerAction :=
  match validateCode pythonBlocklist code with
  | .error e => (.error (.generic ("Python execution failed: " ++ e.message)), [])
  | .ok _ =>
    let cmd := ["python", "-c", code]
    (.ok (o cmd), [.execCmd cmd])

/-- `JavaScriptRuntime.execute`. -/
def javascriptExecute (code : String) (o : ExecOracle) :
    Except JsError ExecutionResult × List ContainerAction :=
  match validateCode javascriptBlocklist code with
  | .error e => (.error (.generic ("JavaScript execution failed: " ++ e.message)), [])
  | .ok _ =>
    let cmd := ["node", "-e", code]
    (.ok (o cmd), [.execCmd cmd])

/-- `BashRuntime.execute`. -/
def bashExecute (code : String) (o : ExecOracle) :
    Except JsError ExecutionResult × List ContainerAction :=
  match validateCode bashBlocklist code with
  | .error e => (.error (.generic ("Bash execution failed: " ++ e.message)), [])
  | .ok _ =>
    let cmd := ["sh", "-c", code]
    (.ok (o cmd), [.execCmd cmd])

/-- `TypeScriptRuntime.execute`. -/
def typescriptExecute (code : String) (tp : TempParams) (o : ExecOracle) :
    Except JsError ExecutionResult × List ContainerAction :=
  match validateCode typescriptBlocklist code with
  | .error e => (.error (.generic ("TypeScript execution failed: " ++ e.message)), [])
  | .ok _ =>
    let tempFile := getTempFilePath tp.timestamp tp.rand ".ts"
    let cmd := ["bun", "run", tempFile]
    (.ok (o cmd), [.putFile tempFile code, .execCmd cmd, .deleteFile tempFile])

/-- `GoRuntime.execute`. -/
def goExecute (code : String) (tp : TempParams) (o : ExecOracle) :
    Except JsError ExecutionResult × List ContainerAction :=
  match validateCode goBlocklist code with
  | .error e => (.error (.generic ("Go execution failed: " ++ e.message)), [])
  | .ok _ =>
    let tempFile := getTempFilePath tp.timestamp tp.rand ".go"
    let wrappedCode := goWrapInMain code
    let cmd := ["go", "run", tempFile]
    (.ok (o cmd), [.putFile tempFile wrappedCode, .execCmd cmd, .deleteFile tempFile])

/-- `RustRuntime.execute`: compile with `rustc`, then run the binary; a
non-zero compile exit returns early with a prefixed stderr. -/
def rustExecute (code : String) (tp : TempParams) (o : ExecOracle) :
    Except JsError ExecutionResult × List ContainerAction :=
  match validateCode rustBlocklist code with
  | .error e => (.error (.generic ("Rust execution failed: " ++ e.message)), [])
  | .ok _ =>
    let tempFile := getTempFilePath tp.timestamp tp.rand ".rs"
    let binaryFile := getTempFilePath tp.timestamp2 tp.rand2 ""
    let wrappedCode := rustWrapInMain code
    let compileCmd := ["rustc", tempFile, "-o", binaryFile]
    let cr := o compileCmd
    if cr.exitCode ≠ 0 then
      (.ok { stdout := cr.stdout, stderr := "Compilation failed:\n" ++ cr.stderr,
             exitCode := cr.exitCode },
       [.putFile tempFile wrappedCode, .execCmd compileCmd])
    else
      let r := o [binaryFile]
      (.ok r,
       [.putFile tempFile wrappedCode, .execCmd compileCmd, .execCmd [binaryFile],
        .deleteFile tempFile, .deleteFile binaryFile])

/-- The six languages that have a runtime adapter. -/
inductive CodeLang where
  | python | typescript | javascript | go | rust | bash
deriving DecidableEq, Repr

/-- The blocklist of each adapter. -/
def blocklistOf : CodeLang → List JsPattern
  | .python => pythonBlocklist
  | .typescript => typescriptBlocklist
  | .javascript => javascriptBlocklist
  | .go => goBlocklist
  | .rust => rustBlocklist
  | .bash => bashBlocklist

/-- The message prefix of each adapter's catch-all re-throw. -/
def execFailPrefix : CodeLang → String
  | .python => "Python execution failed: "
  | .typescript => "TypeScript execution failed: "
  | .javascript => "JavaScript execution failed: "
  | .go => "Go execution failed: "
  | .rust => "Rust execution failed: "
  | .bash => "Bash execution failed: "

/-- Dispatch to the adapter of the language. -/
def adapterExecute (lang : CodeLang) (code : String) (tp : TempParams)
    (o : ExecOracle) : Except JsError ExecutionResult × List ContainerAction :=
  match lang with
  | .python => pythonExecute code o
  | .typescript => typescriptExecute code tp o
  | .javascript => javascriptExecute code o
  | .go => goExecute code tp o
  | .rust => rustExecute code tp o
  | .bash => bashExecute code o

/-! ## Path sanitizer (src/security/pathValidator.ts)

`sanitizePath` rejects null bytes, percent-decodes up to three times
(`decodeURIComponent` in a loop, falling back to the original input when a
decode throws), rejects traversal patterns on the decoded string, re-roots
the path under `/workspace` (stripping leading slashes from absolute
inputs), resolves it, and checks the result against the workspace root, the
blocked path prefixes and the path components.  Errors are
`PathSecurityError` values carrying the message.
-/

/-- Value of a hex digit, or `none`. -/
def hexDigitVal (c : Char) : Option Nat :=
  if '0' ≤ c ∧ c ≤ '9' then some (c.toNat - 48)
  else if 'a' ≤ c ∧ c ≤ 'f' then some (c.toNat - 87)
  else if 'A' ≤ c ∧ c ≤ 'F' then some (c.toNat - 55)
  else none

/-- UTF-8 encoding of one character (1 to 4 bytes). -/
def charUtf8 (c : Char) : List Nat :=
  let n := c.toNat
  if n < 0x80 then [n]
  else if n < 0x800 then [0xC0 ||| (n >>> 6), 0x80 ||| (n &&& 0x3F)]
  else if n < 0x10000 then
    [0xE0 ||| (n >>> 12), 0x80 ||| ((n >>> 6) &&& 0x3F), 0x80 ||| (n &&& 0x3F)]
  else
    [0xF0 ||| (n >>> 18), 0x80 ||| ((n >>> 12) &&& 0x3F),
     0x80 ||| ((n >>> 6) &&& 0x3F), 0x80 ||| (n &&& 0x3F)]

/-- Byte sequence denoted by a percent-encoded string: a `%XY` escape
denotes the byte `0xXY`, any other character denotes its UTF-8 bytes; a
malformed escape is a `URIError` (`none`). -/
def pctBytes : List Char → Option (List Nat)
  | [] => some []
  | '%' :: h1 :: h2 :: rest => do
    let a ← hexDigitVal h1
    let b ← hexDigitVal h2
    let tail ← pctBytes rest
    pure ((16 * a + b) :: tail)
  | '%' :: _ => none
  | c :: rest => (charUtf8 c ++ ·) <$> pctBytes rest

/-- Is `b` a UTF-8 continuation byte? -/
def isUtf8Cont (b : Nat) : Bool := 0x80 ≤ b && b ≤ 0xBF

/-- Strict UTF-8 decoder; rejects overlong encodings, surrogates and
truncated sequences, as `decodeURIComponent` does. -/
def utf8Dec : List Nat → Option (List Char)
  | [] => some []
  | b :: rest =>
    if b < 0x80 then (Char.ofNat b :: ·) <$> utf8Dec rest
    else if 0xC2 ≤ b ∧ b ≤ 0xDF then
      match rest with
      | b2 :: rest2 =>
        if isUtf8Cont b2 then
          (Char.ofNat (((b - 0xC0) <<< 6) ||| (b2 - 0x80)) :: ·) <$> utf8Dec rest2
        else none
      | _ => none
    else if 0xE0 ≤ b ∧ b ≤ 0xEF then
      match rest with
      | b2 :: b3 :: rest3 =>
        let lowOk :=
          if b = 0xE0 then 0xA0 ≤ b2 && b2 ≤ 0xBF
          else if b = 0xED then 0x80 ≤ b2 && b2 ≤ 0x9F
          else isUtf8Cont b2
        if lowOk && isUtf8Cont b3 then
          (Char.ofNat ((((b - 0xE0) <<< 12) ||| ((b2 - 0x80) <<< 6)) ||| (b3 - 0x80)) :: ·)
            <$> utf8Dec rest3
        else none
      | _ => none
    else if 0xF0 ≤ b ∧ b ≤ 0xF4 then
      match rest with
      | b2 :: b3 :: b4 :: rest4 =>
        let lowOk :=
          if b = 0xF0 then 0x90 ≤ b2 && b2 ≤ 0xBF
          else if b = 0xF4 then 0x80 ≤ b2 && b2 ≤ 0x8F
          else isUtf8Cont b2
        if lowOk && isUtf8Cont b3 && isUtf8Cont b4 then
          (Char.ofNat (((((b - 0xF0) <<< 18) ||| ((b2 - 0x80) <<< 12)) |||
              ((b3 - 0x80) <<< 6)) ||| (b4 - 0x80)) :: ·) <$> utf8Dec rest4
        else none
      | _ => none
    else none

/-- `decodeURIComponent`, returning `none` where JavaScript throws
`URIError`. -/
def decodeURIComponentL (s : List Char) : Option (List Char) :=
  (pctBytes s).bind utf8Dec

/-- The decode loop of `sanitizePath` step 2: decode up to `fuel` times,
stopping at a fixed point; `none` when a decode throws. -/
def decodeLoop : Nat → List Char → Option (List Char)
  | 0, s => some s
  | n + 1, s =>
    match decodeURIComponentL s with
    | none => none
    | some t => if t = s then some s else decodeLoop n t

/-- The decoded path: three decode rounds, falling back to the original on
a `URIError` (the `catch` branch). -/
def decodedOf (s : List Char) : List Char :=
  (decodeLoop 3 s).getD s

/-- Does `hay` contain `needle` as a contiguous substring? -/
def hasSub (needle : List Char) : List Char → Bool
  | [] => startsWithL needle []
  | c :: rest => startsWithL needle (c :: rest) || hasSub needle rest

/-- ASCII lower-casing, the case folding relevant to the `/i` flags used
in the traversal patterns (their letters are ASCII). -/
def lowerChar (c : Char) : Char :=
  if 'A' ≤ c ∧ c ≤ 'Z' then Char.ofNat (c.toNat + 32) else c

/-- Case-insensitive substring test. -/
def hasSubCI (needle hay : List Char) : Bool :=
  hasSub (needle.map lowerChar) (hay.map lowerChar)

/-- Step 3 of `sanitizePath`: the five traversal patterns `/\.\./`,
`/\.\.\\/`, `/%2e%2e/i`, `/%252e/i`, `/\.\./`, tested in order on the
decoded string (each is a plain substring test). -/
def traversalHit (decoded : List Char) : Bool :=
  hasSub "..".data decoded ||
  hasSub "..\\".data decoded ||
  hasSubCI "%2e%2e".data decoded ||
  hasSubCI "%252e".data decoded ||
  hasSub "..".data decoded

/-- Collapse the segments of a POSIX path: drop empty and `.` segments;
`..` pops the last retained segment, except that at the root of an
absolute path it is dropped and in a relative path with nothing left to
pop it is kept (Node's `path.normalize`/`path.resolve` semantics). -/
def collapseSegs (isAbs : Bool) (segs : List (List Char)) : List (List Char) :=
  segs.foldl
    (fun acc seg =>
      if seg = [] ∨ seg = ['.'] then acc
      else if seg = ['.', '.'] then
        if acc ≠ [] ∧ acc.getLast? ≠ some ['.', '.'] then acc.dropLast
        else if isAbs then acc
        else acc ++ [seg]
      else acc ++ [seg])
    []

/-- Node `path.normalize` for POSIX paths. -/
def posixNormalizeL (s : List Char) : List Char :=
  if s = [] then ['.']
  else
    let isAbs := startsWithL ['/'] s
    let trail := s.getLast? = some '/'
    let core := intercalateChar '/' (collapseSegs isAbs (splitOnCharL '/' s))
    let core := if isAbs then '/' :: core else core
    let core := if core = [] then ['.'] else core
    if trail ∧ core.getLast? ≠ some '/' then core ++ ['/'] else core

/-- Node `path.flatten` of the workspace root with a (possibly empty) second
part: concatenate with a slash and normalize. -/
def posixJoinRoot (root rest : List Char) : List Char :=
  if rest = [] then posixNormalizeL root
  else posixNormalizeL (root ++ '/' :: rest)

/-- Node `path.resolve` on an already-absolute path: collapse the segments
and drop any trailing slash.  (In `sanitizePath` the argument always starts
with `/`, being the normalization of a join with `/workspace`.) -/
def posixResolveAbs (s : List Char) : List Char :=
  '/' :: intercalateChar '/' (collapseSegs true (splitOnCharL '/' s))

/-- `WORKSPACE_ROOT` of pathValidator.ts. -/
def WORKSPACE_ROOT : String := "/workspace"

/-- `BLOCKED_PATHS` of pathValidator.ts. -/
def BLOCKED_PATHS : List String :=
  ["/etc", "/proc", "/sys", "/dev", "/root", "/home", "/var", "/usr", "/bin",
   "/sbin", "/lib", "/lib64", "/boot", "/opt", "/run", "/srv", "/mnt", "/media"]

/-- Steps 4 and 5 of `sanitizePath`: normalize under the workspace root
(stripping the leading slashes of an absolute input) and resolve. -/
def sanitizeResolved (decoded : List Char) : List Char :=
  let normalized :=
    if startsWithL ['/'] decoded then
      posixJoinRoot WORKSPACE_ROOT.data (decoded.dropWhile (fun c => c = '/'))
    else posixJoinRoot WORKSPACE_ROOT.data decoded
  posixResolveAbs normalized

/-- Steps 5 to 7 of `sanitizePath` on the resolved path: the workspace
check (`if (resolved !== ROOT && !resolved.startsWith(ROOT + '/')) throw`,
written with the condition in positive form), the blocked-prefix check and
the per-component check. -/
def sanitizeCheck (resolved : List Char) : Except String String :=
  if resolved = WORKSPACE_ROOT.data ∨
      startsWithL (WORKSPACE_ROOT ++ "/").data resolved = true then
    match BLOCKED_PATHS.find?
        (fun b => resolved = b.data ∨ startsWithL (b ++ "/").data resolved) with
    | some b => .error ("Access to " ++ b ++ " is prohibited")
    | none =>
      if ((splitOnCharL '/' resolved).filter (fun c => c ≠ [])).any
          (fun comp => startsWithL "..".data comp ∨ comp = ['.']) then
        .error "Invalid path component detected"
      else .ok (String.mk resolved)
  else
    .error ("Path escapes workspace: resolved to \"" ++ String.mk resolved ++ "\"")

/-- `sanitizePath`: the sanitized absolute path under `/workspace`, or the
message of the `PathSecurityError` thrown.  (Step 1 of the code tests for
`'\x00'` and for `'\0'`, which are the same character.) -/
def sanitizePath (userPath : String) : Except String String :=
  if userPath.data.contains '\x00' then .error "Null byte detected in path"
  else if traversalHit (decodedOf userPath.data) then
    .error "Path traversal pattern detected"
  else sanitizeCheck (sanitizeResolved (decodedOf userPath.data))

deriving instance DecidableEq for Except

/-! ## Container output demuxing (src/docker/Container.ts)

Container.ts declares output caps and a truncation marker and documents them
as protection against OOM attacks.  `executeWithTimeout` demuxes the engine
stream into stdout/stderr by appending every chunk to the corresponding
accumulator; the sequence of demuxed chunks is the input here.
-/

/-- `MAX_STDOUT_SIZE = 10 * 1024 * 1024`. -/
def MAX_STDOUT_SIZE : Nat := 10 * 1024 * 1024

/-- `MAX_STDERR_SIZE = 5 * 1024 * 1024`. -/
def MAX_STDERR_SIZE : Nat := 5 * 1024 * 1024

/-- `TRUNCATION_MESSAGE`. -/
def TRUNCATION_MESSAGE : String :=
  "\n\n... [OUTPUT TRUNCATED - SIZE LIMIT EXCEEDED] ...\n"

/-- Which stream a demuxed chunk belongs to. -/
inductive StreamKind where
  | stdout | stderr
deriving DecidableEq, Repr

/-- The stdout/stderr accumulation of `Container.executeWithTimeout`: each
demuxed chunk is appended to its stream's accumulator, without any cap or
marker (the declared constants above are not consulted). -/
def executeWithTimeoutOutput (frames : List (StreamKind × String)) : String × String :=
  frames.foldl
    (fun acc f =>
      match f.1 with
      | .stdout => (acc.1 ++ f.2, acc.2)
      | .stderr => (acc.1, acc.2 ++ f.2))
    ("", "")

/-! ## Audit severity (src/security/AuditLogger.ts) -/

/-- `AuditEventType`. -/
inductive AuditEventType where
  | EXECUTE_START | EXECUTE_END | EXECUTE_ERROR | EXECUTE_TIMEOUT
  | EXECUTE_BLOCKED | SESSION_CREATE | SESSION_DESTROY | SESSION_PAUSE
  | SESSION_RESUME | PACKAGE_INSTALL | PACKAGE_INSTALL_BLOCKED | FILE_READ
  | FILE_WRITE | FILE_DELETE | SECURITY_VIOLATION | CONTAINER_CREATE
  | CONTAINER_DESTROY | POOL_ACQUIRE | POOL_RELEASE
deriving DecidableEq, Repr

/-- `AuditSeverity`. -/
inductive AuditSeverity where
  | INFO | WARN | ERROR | CRITICAL
deriving DecidableEq, Repr

/-- `AuditLogger.inferSeverity`. -/
def inferSeverity (eventType : AuditEventType) (success : Option Bool) : AuditSeverity :=
  if eventType = .SECURITY_VIOLATION then .CRITICAL
  else if eventType = .EXECUTE_BLOCKED ∨ eventType = .PACKAGE_INSTALL_BLOCKED then .WARN
  else if eventType = .EXECUTE_ERROR ∨ eventType = .EXECUTE_TIMEOUT then .ERROR
  else if success = some false then .ERROR
  else .INFO

/-- The fields of an audit event relevant to severity inference (timestamp,
event id, details, language/session/container references elided). -/
structure AuditEvent where
  eventType : AuditEventType
  severity : AuditSeverity
  success : Bool
deriving DecidableEq, Repr

/-- The options of `AuditLogger.log` that participate in severity. -/
structure AuditLogOptions where
  severity : Option AuditSeverity
  success : Option Bool
deriving DecidableEq, Repr

/-- `AuditLogger.log`: build the event (severity is
`options.severity || inferSeverity(eventType, options.success)`, success
defaults to `true`) and push it onto the bounded in-memory buffer
(`maxInMemoryEvents = 1000`: the oldest event is shifted out when the
buffer overflows). -/
def auditLog (events : List AuditEvent) (eventType : AuditEventType)
    (options : AuditLogOptions) : AuditEvent × List AuditEvent :=
  let event : AuditEvent :=
    { eventType := eventType
      severity := options.severity.getD (inferSeverity eventType options.success)
      success := options.success.getD true }
  let events := events ++ [event]
  let events := if events.length > 1000 then events.drop 1 else events
  (event, events)

/-! ## Session manager (src/core/SessionManager.ts)

Two maps: `sessions : id → Session` and `sessionsByName : name → id`.
JavaScript `Map`s are modelled as association lists in insertion order
(`set` of an existing key updates in place, `delete` removes).  Mutating a
session object found through either map mutates the entry it was found
under, so `get` is modelled as locating the entry's key and updating there.
Engine pause/unpause/stop/remove calls are recorded; the claims under
examination only concern runs where those engine calls succeed, which is how
they are modelled.
-/

/-- Update the value stored under `k` (JavaScript `Map.prototype.set`:
in-place update of an existing key, appending otherwise). -/
def mapSet {α : Type} (m : List (String × α)) (k : String) (v : α) :
    List (String × α) :=
  if m.any (fun kv => kv.1 = k) then
    m.map (fun kv => if kv.1 = k then (k, v) else kv)
  else m ++ [(k, v)]

/-- `Map.prototype.delete`. -/
def mapDelete {α : Type} (m : List (String × α)) (k : String) :
    List (String × α) :=
  m.filter (fun kv => kv.1 ≠ k)

/-- `Map.prototype.get`. -/
def mapGet {α : Type} (m : List (String × α)) (k : String) : Option α :=
  (m.find? (fun kv => kv.1 = k)).map (fun kv => kv.2)

/-- `SessionState`: the `stopped` state is declared but never assigned. -/
inductive SessionState where
  | active | paused | stopped
deriving DecidableEq, Repr

/-- A session; `metadata`, `createdAt` and the language are irrelevant to
the checked claims and elided except for the fields they inspect. -/
structure Session where
  id : String
  name : String
  container : String
  state : SessionState
  lastUsedAt : Nat
  expiresAt : Option Nat
deriving DecidableEq, Repr

/-- The two maps of `SessionManager`. -/
structure SessionStore where
  sessions : List (String × Session)
  sessionsByName : List (String × String)
deriving DecidableEq, Repr

/-- An engine call issued through a session's container handle. -/
inductive SessionEngineOp where
  | pause (container : String)
  | unpause (container : String)
  | stop (container : String)
  | remove (container : String)
deriving DecidableEq, Repr

/-- The key in `sessions` under which `get(nameOrId)` finds the session:
directly, or through `sessionsByName`. -/
def findSessionKey (st : SessionStore) (nameOrId : String) : Option String :=
  if (mapGet st.sessions nameOrId).isSome then some nameOrId
  else
    match mapGet st.sessionsByName nameOrId with
    | some id => if (mapGet st.sessions id).isSome then some id else none
    | none => none

/-- Pure lookup of the session `get` would return, without the
`lastUsedAt` side effect (used to state properties). -/
def lookupSession (st : SessionStore) (nameOrId : String) : Option Session :=
  (findSessionKey st nameOrId).bind (fun k => mapGet st.sessions k)

/-- The lookup/update core of `SessionManager.get`: on a hit, the entry's
key is reported, `session.lastUsedAt = new Date()` mutates the found
session object, i.e. the entry it was found under. -/
def sessionGetEntry (st : SessionStore) (nameOrId : String) (now : Nat) :
    Option (String × Session) × SessionStore :=
  match findSessionKey st nameOrId with
  | none => (none, st)
  | some k =>
    match mapGet st.sessions k with
    | none => (none, st)
    | some s =>
      let s := { s with lastUsedAt := now }
      (some (k, s), { st with sessions := mapSet st.sessions k s })

/-- `SessionManager.get`. -/
def sessionGet (st : SessionStore) (nameOrId : String) (now : Nat) :
    Option Session × SessionStore :=
  let r := sessionGetEntry st nameOrId now
  (r.1.map (fun ks => ks.2), r.2)

/-- `SessionManager.pause`: not found throws; already paused is a no-op;
otherwise engine pause, then `session.state = 'paused'` (a mutation of the
object found, i.e. of the entry under the found key). -/
def sessionPause (st : SessionStore) (sessionId : String) (now : Nat) :
    Except String (SessionStore × List SessionEngineOp) :=
  match sessionGetEntry st sessionId now with
  | (none, _) => .error ("Session not found: " ++ sessionId)
  | (some (k, s), st1) =>
    if s.state = .paused then .ok (st1, [])
    else
      let s2 := { s with state := .paused }
      .ok ({ st1 with sessions := mapSet st1.sessions k s2 }, [.pause s.container])

/-- `SessionManager.resume`: not found throws; not paused is a no-op;
otherwise engine unpause, `state = 'active'`, `lastUsedAt` refreshed. -/
def sessionResume (st : SessionStore) (sessionId : String) (now : Nat) :
    Except String (SessionStore × List SessionEngineOp) :=
  match sessionGetEntry st sessionId now with
  | (none, _) => .error ("Session not found: " ++ sessionId)
  | (some (k, s), st1) =>
    if s.state ≠ .paused then .ok (st1, [])
    else
      let s2 := { s with state := .active, lastUsedAt := now }
      .ok ({ st1 with sessions := mapSet st1.sessions k s2 }, [.unpause s.container])

/-- `SessionManager.destroy`: not found throws `Session not found`;
otherwise stop and remove the container and delete `session.id` from the
sessions map and `session.name` from the name map. -/
def sessionDestroy (st : SessionStore) (sessionId : String) (now : Nat) :
    Except String (SessionStore × List SessionEngineOp) :=
  match sessionGetEntry st sessionId now with
  | (none, _) => .error ("Session not found: " ++ sessionId)
  | (some (_, s), st1) =>
    .ok ({ sessions := mapDelete st1.sessions s.id
           sessionsByName := mapDelete st1.sessionsByName s.name },
         [.stop s.container, .remove s.container])

/-- The expiry scan of `SessionManager.cleanup`: the ids of sessions with
`expiresAt <= now`. -/
def expiredIds (st : SessionStore) (now : Nat) : List String :=
  (st.sessions.filter
    (fun kv =>
      match kv.2.expiresAt with
      | some t => t ≤ now
      | none => false)).map (fun kv => kv.2.id)

/-- `SessionManager.cleanup`: destroy every expired session, re-checking
existence first and swallowing per-session destroy failures (the `try` /
`catch` around `this.destroy(id)`), so the janitor itself never throws. -/
def sessionCleanup (st : SessionStore) (now : Nat) :
    SessionStore × List SessionEngineOp :=
  (expiredIds st now).foldl
    (fun acc id =>
      if (mapGet acc.1.sessions id).isSome then
        match sessionDestroy acc.1 id now with
        | .ok (st2, ops) => (st2, acc.2 ++ ops)
        | .error _ => acc
      else acc)
    (st, [])

/-! ## SHA-256 (Node `crypto.createHash('sha256')`)

`PackageCache.getCacheKey` hashes `` `${language}:${JSON.stringify(sorted)}` ``
with SHA-256 and uses the hex digest.  The hash is implemented here over
`Nat` with explicit 32-bit masking.
-/

/-- 32-bit mask. -/
def mask32 : Nat := 0xFFFFFFFF

/-- Right rotation of a 32-bit word. -/
def rotr32 (n x : Nat) : Nat := ((x >>> n) ||| (x <<< (32 - n))) &&& mask32

/-- Parse a hex word (used for the constant tables below). -/
def parseHexWord (cs : List Char) : Nat :=
  cs.foldl (fun acc c => 16 * acc + (hexDigitVal c).getD 0) 0

/-- Parse a space-separated table of hex words. -/
def parseHexTable (s : String) : List Nat :=
  ((splitOnCharL ' ' s.data).filter (fun w => w ≠ [])).map parseHexWord

/-- The SHA-256 round constants (FIPS 180-4: the fractional parts of the
cube roots of the first 64 primes). -/
def sha256K : List Nat := parseHexTable
  ("428a2f98 71374491 b5c0fbcf e9b5dba5 3956c25b 59f111f1 923f82a4 ab1c5ed5 " ++
   "d807aa98 12835b01 243185be 550c7dc3 72be5d74 80deb1fe 9bdc06a7 c19bf174 " ++
   "e49b69c1 efbe4786 0fc19dc6 240ca1cc 2de92c6f 4a7484aa 5cb0a9dc 76f988da " ++
   "983e5152 a831c66d b00327c8 bf597fc7 c6e00bf3 d5a79147 06ca6351 14292967 " ++
   "27b70a85 2e1b2138 4d2c6dfc 53380d13 650a7354 766a0abb 81c2c92e 92722c85 " ++
   "a2bfe8a1 a81a664b c24b8b70 c76c51a3 d192e819 d6990624 f40e3585 106aa070 " ++
   "19a4c116 1e376c08 2748774c 34b0bcb5 391c0cb3 4ed8aa4a 5b9cca4f 682e6ff3 " ++
   "748f82ee 78a5636f 84c87814 8cc70208 90befffa a4506ceb bef9a3f7 c67178f2")

/-- The SHA-256 initial hash values (the fractional parts of the square
roots of the first 8 primes). -/
def sha256H0 : List Nat := parseHexTable
  "6a09e667 bb67ae85 3c6ef372 a54ff53a 510e527f 9b05688c 1f83d9ab 5be0cd19"

/-- Big-endian 8-byte encoding. -/
def lenBE8 (n : Nat) : List Nat :=
  [(n >>> 56) &&& 255, (n >>> 48) &&& 255, (n >>> 40) &&& 255, (n >>> 32) &&& 255,
   (n >>> 24) &&& 255, (n >>> 16) &&& 255, (n >>> 8) &&& 255, n &&& 255]

/-- SHA-256 padding: `0x80`, zeros to 56 mod 64, the bit length. -/
def sha256Pad (msg : List Nat) : List Nat :=
  let len := msg.length
  let k := (64 + 56 - ((len + 1) % 64)) % 64
  msg ++ 0x80 :: List.replicate k 0 ++ lenBE8 (8 * len)

/-- Group bytes into big-endian 32-bit words. -/
def toWords32 : List Nat → List Nat
  | b1 :: b2 :: b3 :: b4 :: rest => (((b1 * 256 + b2) * 256 + b3) * 256 + b4) :: toWords32 rest
  | _ => []

/-- Split a word list into 16-word chunks (fuel is the list length). -/
def chunk16F : Nat → List Nat → List (List Nat)
  | 0, _ => []
  | _, [] => []
  | fuel + 1, ws => ws.take 16 :: chunk16F fuel (ws.drop 16)

/-- The message-schedule extension: 48 more words. -/
def sha256Extend : Nat → List Nat → List Nat
  | 0, w => w
  | f + 1, w =>
    let i := w.length
    let x15 := w.getD (i - 15) 0
    let x2 := w.getD (i - 2) 0
    let s0 := (rotr32 7 x15 ^^^ rotr32 18 x15) ^^^ (x15 >>> 3)
    let s1 := (rotr32 17 x2 ^^^ rotr32 19 x2) ^^^ (x2 >>> 10)
    sha256Extend f (w ++ [(((w.getD (i - 16) 0 + s0) + w.getD (i - 7) 0) + s1) &&& mask32])

/-- The working variables of the compression loop. -/
structure Sha256State where
  a : Nat
  b : Nat
  c : Nat
  d : Nat
  e : Nat
  f : Nat
  g : Nat
  h : Nat

/-- One compression round. -/
def sha256Round (st : Sha256State) (kw : Nat × Nat) : Sha256State :=
  let S1 := (rotr32 6 st.e ^^^ rotr32 11 st.e) ^^^ rotr32 25 st.e
  let ch := (st.e &&& st.f) ^^^ ((st.e ^^^ mask32) &&& st.g)
  let temp1 := ((((st.h + S1) + ch) + kw.1) + kw.2) &&& mask32
  let S0 := (rotr32 2 st.a ^^^ rotr32 13 st.a) ^^^ rotr32 22 st.a
  let maj := ((st.a &&& st.b) ^^^ (st.a &&& st.c)) ^^^ (st.b &&& st.c)
  let temp2 := (S0 + maj) &&& mask32
  { a := (temp1 + temp2) &&& mask32, b := st.a, c := st.b, d := st.c,
    e := (st.d + temp1) &&& mask32, f := st.e, g := st.f, h := st.g }

/-- Process one 16-word chunk against the running hash. -/
def sha256Chunk (hs : List Nat) (chunk : List Nat) : List Nat :=
  let w := sha256Extend 48 chunk
  let init : Sha256State :=
    { a := hs.getD 0 0, b := hs.getD 1 0, c := hs.getD 2 0, d := hs.getD 3 0,
      e := hs.getD 4 0, f := hs.getD 5 0, g := hs.getD 6 0, h := hs.getD 7 0 }
  let fin := (sha256K.zip w).foldl sha256Round init
  [(hs.getD 0 0 + fin.a) &&& mask32, (hs.getD 1 0 + fin.b) &&& mask32,
   (hs.getD 2 0 + fin.c) &&& mask32, (hs.getD 3 0 + fin.d) &&& mask32,
   (hs.getD 4 0 + fin.e) &&& mask32, (hs.getD 5 0 + fin.f) &&& mask32,
   (hs.getD 6 0 + fin.g) &&& mask32, (hs.getD 7 0 + fin.h) &&& mask32]

/-- Hex digit character. -/
def hexChar (n : Nat) : Char := "0123456789abcdef".data.getD n '0'

/-- Hex encoding of a 32-bit word. -/
def toHex8 (w : Nat) : List Char :=
  [hexChar ((w >>> 28) &&& 15), hexChar ((w >>> 24) &&& 15),
   hexChar ((w >>> 20) &&& 15), hexChar ((w >>> 16) &&& 15),
   hexChar ((w >>> 12) &&& 15), hexChar ((w >>> 8) &&& 15),
   hexChar ((w >>> 4) &&& 15), hexChar (w &&& 15)]

/-- SHA-256 hex digest of the UTF-8 bytes of a string. -/
def sha256Hex (s : String) : String :=
  let bytes := (s.data.map charUtf8).flatten
  let words := toWords32 (sha256Pad bytes)
  let hs := (chunk16F words.length words).foldl sha256Chunk sha256H0
  String.mk (hs.map toHex8).flatten

/-! ## Package cache (src/core/PackageCache.ts)

The Docker engine is modelled by its image list.  Image references follow
the engine's rules: `commit(container, {repo, tag})` stores the image under
the reference `repo:tag` (this is what `docker.listImages()` reports in
`RepoTags`), and the engine rejects a tag that is not of the form
`[A-Za-z0-9_][A-Za-z0-9._-]{0,127}` — in particular a tag containing `:`.
-/

/-- An engine image as surfaced by `DockerClient.listImages` (size and
creation date elided). -/
structure DockerImage where
  id : String
  tags : List String
deriving DecidableEq, Repr

/-- The engine's image store. -/
structure DockerState where
  images : List DockerImage
  nextId : Nat
deriving DecidableEq, Repr

/-- Valid characters in a Docker tag (after the first). -/
def isDockerTagChar (c : Char) : Bool :=
  ('a' ≤ c && c ≤ 'z') || ('A' ≤ c && c ≤ 'Z') || ('0' ≤ c && c ≤ '9') ||
  c = '_' || c = '.' || c = '-'

/-- Docker tag validity: `[A-Za-z0-9_][A-Za-z0-9._-]{0,127}`. -/
def validDockerTag (tag : String) : Bool :=
  match tag.data with
  | [] => false
  | c :: rest =>
    (isDockerTagChar c && c ≠ '.' && c ≠ '-') &&
    rest.all isDockerTagChar && rest.length ≤ 127

/-- The engine's commit endpoint: tag the container's state as `repo:tag`,
or reject an invalid tag. -/
def dockerCommit (ds : DockerState) (repo tag : String) : Except String DockerState :=
  if validDockerTag tag then
    .ok { images := ds.images ++ [⟨"sha256:" ++ toString ds.nextId, [repo ++ ":" ++ tag]⟩],
          nextId := ds.nextId + 1 }
  else .error "invalid reference format"

/-- `Container.commit(tag)`: commits with `{repo: 'mcp-sandbox', tag}` and
wraps an engine failure. -/
def containerCommit (ds : DockerState) (tag : String) : Except String DockerState :=
  match dockerCommit ds "mcp-sandbox" tag with
  | .ok ds2 => .ok ds2
  | .error msg => .error ("Failed to commit container: " ++ msg)

/-- JavaScript code-unit comparison of strings (`<` used by the default
`Array.prototype.sort` comparator; the strings here are ASCII, where
code-unit and code-point order agree). -/
def jsStrLt : List Char → List Char → Bool
  | [], [] => false
  | [], _ :: _ => true
  | _ :: _, [] => false
  | a :: as, b :: bs =>
    if a.toNat < b.toNat then true
    else if b.toNat < a.toNat then false
    else jsStrLt as bs

/-- Insert into an ascending list. -/
def insertSorted (x : String) : List String → List String
  | [] => [x]
  | y :: ys => if jsStrLt y.data x.data then y :: insertSorted x ys else x :: y :: ys

/-- `[...packages].sort()`. -/
def jsSort (xs : List String) : List String :=
  xs.foldl (fun acc x => insertSorted x acc) []

/-- `JSON.stringify` escaping of one character. -/
def jsonEscapeChar (c : Char) : List Char :=
  if c = '"' then ['\\', '"']
  else if c = '\\' then ['\\', '\\']
  else if c = '\x08' then ['\\', 'b']
  else if c = '\x0c' then ['\\', 'f']
  else if c = '\n' then ['\\', 'n']
  else if c = '\r' then ['\\', 'r']
  else if c = '\t' then ['\\', 't']
  else if c.toNat < 0x20 then
    '\\' :: 'u' :: '0' :: '0' :: [hexChar ((c.toNat >>> 4) &&& 15), hexChar (c.toNat &&& 15)]
  else [c]

/-- `JSON.stringify` of a string. -/
def jsonString (s : String) : List Char :=
  '"' :: (s.data.map jsonEscapeChar).flatten ++ ['"']

/-- `JSON.stringify` of an array of strings. -/
def jsonStringifyArr (xs : List String) : String :=
  String.mk ('[' :: intercalateChar ',' (xs.map jsonString) ++ [']'])

/-- `PackageCache.getCacheKey`: sha256 hex of
`` `${language}:${JSON.stringify(sorted)}` ``. -/
def getCacheKey (language : String) (packages : List String) : String :=
  sha256Hex (language ++ ":" ++ jsonStringifyArr (jsSort packages))

/-- `InstallResult` (durations elided). -/
structure InstallResult where
  success : Bool
  cached : Bool
  installedPackages : List String
  errors : List String
deriving DecidableEq, Repr

/-- The state of the package cache: the engine images plus hit/miss
counters. -/
structure CacheState where
  docker : DockerState
  cacheHits : Nat
  cacheMisses : Nat
deriving DecidableEq, Repr

/-- `PackageCache.hasImage`: scan `listImages()` for the exact reference. -/
def hasImage (ds : DockerState) (imageName : String) : Bool :=
  ds.images.any (fun img => img.tags.contains imageName)

/-- `PackageCache.install`.  `runtimeResult` is the outcome the runtime
adapter's `installPackages` would report if invoked.  Returns the result,
the new state, and whether the runtime install was invoked.  A commit
failure is caught by the surrounding `try` and reported as
`{success: false, cached: false, errors: [message]}`. -/
def packageCacheInstall (language : String) (packages : List String)
    (runtimeResult : InstallResult) (st : CacheState) :
    InstallResult × CacheState × Bool :=
  let cacheKey := getCacheKey language packages
  let imageName := "mcp-sandbox-" ++ language ++ ":" ++ String.mk (cacheKey.data.take 12)
  if hasImage st.docker imageName then
    ({ success := true, cached := true, installedPackages := packages, errors := [] },
     { st with cacheHits := st.cacheHits + 1 }, false)
  else
    let st1 : CacheState := { st with cacheMisses := st.cacheMisses + 1 }
    if !runtimeResult.success then (runtimeResult, st1, true)
    else
      match containerCommit st1.docker imageName with
      | .error msg =>
        ({ success := false, cached := false, installedPackages := [], errors := [msg] },
         st1, true)
      | .ok ds2 =>
        ({ success := true, cached := false, installedPackages := packages, errors := [] },
         { st1 with docker := ds2 }, true)

/-! ## Container pool (src/core/ContainerPool.ts)

The pool is a `Map` from container id to pooled entry.  `destroyContainer`
stops and removes the container and only then deletes the pool entry, so an
engine failure (caught and logged) leaves the entry in the map;
`engineFail` says which containers' stop/remove would throw, and
`cleanFail` which containers' cleaner would throw.  The returned list holds
the ids of containers actually destroyed.
-/

/-- A pooled entry (`PooledContainer`). -/
structure PooledContainer where
  lang : String
  createdAt : Nat
  lastUsedAt : Nat
  useCount : Nat
  healthy : Bool
deriving DecidableEq, Repr

/-- Pool state: the map plus the `maxActive` configuration. -/
structure PoolState where
  pool : List (String × PooledContainer)
  maxActive : Nat
deriving DecidableEq, Repr

/-- The loop body of `evictOldest`: keep the entry seen so far unless the
next one is strictly older. -/
def pickOlder (acc : Option (String × PooledContainer))
    (e : String × PooledContainer) : Option (String × PooledContainer) :=
  match acc with
  | none => some e
  | some o => if e.2.lastUsedAt < o.2.lastUsedAt then some e else some o

/-- The scan of `evictOldest`: the first entry with the strictly smallest
`lastUsedAt`, in iteration (insertion) order. -/
def evictOldestPick (pool : List (String × PooledContainer)) :
    Option (String × PooledContainer) :=
  pool.foldl pickOlder none

/-- `destroyContainer`: stop, remove, then delete from the map; a throwing
stop/remove is caught, leaving the entry in place. -/
def destroyContainer (engineFail : String → Bool)
    (pool : List (String × PooledContainer)) (cid : String) :
    List (String × PooledContainer) × List String :=
  if engineFail cid then (pool, []) else (mapDelete pool cid, [cid])

/-- The fresh entry inserted by `release`. -/
def freshEntry (lang : String) (now : Nat) : PooledContainer :=
  { lang := lang, createdAt := now, lastUsedAt := now, useCount := 0, healthy := true }

/-- `ContainerPool.release`: evict the LRU entry when the pool is full, run
the cleaner, then insert a fresh entry; a cleaner failure destroys the
container instead of re-pooling it. -/
def poolRelease (engineFail cleanFail : String → Bool) (st : PoolState)
    (cid : String) (lang : String) (now : Nat) : PoolState × List String :=
  let step1 :=
    if st.pool.length ≥ st.maxActive then
      match evictOldestPick st.pool with
      | some e => destroyContainer engineFail st.pool e.1
      | none => (st.pool, [])
    else (st.pool, [])
  if cleanFail cid then
    let step2 := destroyContainer engineFail step1.1 cid
    ({ st with pool := step2.1 }, step1.2 ++ step2.2)
  else
    ({ st with pool := mapSet step1.1 cid (freshEntry lang now) }, step1.2)

/-! ## Auxiliary lemmas -/

/-- Get after the in-place-update branch of `mapSet`, same key. -/
theorem mapGet_map_update_self {α : Type} (m : List (String × α)) (k : String) (v : α)
    (h : m.any (fun kv => kv.1 = k) = true) :
    mapGet (m.map (fun kv => if kv.1 = k then (k, v) else kv)) k = some v := by
  induction m with
  | nil => simp at h
  | cons e rest ih =>
    by_cases he : e.1 = k
    · unfold mapGet
      rw [List.map_cons, if_pos he, List.find?_cons_of_pos _ (by simp)]
      simp
    · unfold mapGet at ih ⊢
      rw [List.map_cons, if_neg he, List.find?_cons_of_neg _ (by simpa using he)]
      refine ih ?_
      simpa [he] using h

/-- Get after the in-place-update branch of `mapSet`, other key. -/
theorem mapGet_map_update_ne {α : Type} (m : List (String × α)) (k k' : String) (v : α)
    (h : k' ≠ k) :
    mapGet (m.map (fun kv => if kv.1 = k then (k, v) else kv)) k' = mapGet m k' := by
  induction m with
  | nil => simp [mapGet]
  | cons e rest ih =>
    by_cases he : e.1 = k
    · have he' : ¬ e.1 = k' := fun hc => h (hc ▸ he)
      unfold mapGet at ih ⊢
      rw [List.map_cons, if_pos he,
        List.find?_cons_of_neg _ (by simp only [decide_eq_true_eq]; exact fun hc => h hc.symm),
        List.find?_cons_of_neg _ (by simpa using he')]
      exact ih
    · by_cases he' : e.1 = k'
      · unfold mapGet
        rw [List.map_cons, if_neg he, List.find?_cons_of_pos _ (by simpa using he'),
          List.find?_cons_of_pos _ (by simpa using he')]
      · unfold mapGet at ih ⊢
        rw [List.map_cons, if_neg he, List.find?_cons_of_neg _ (by simpa using he'),
          List.find?_cons_of_neg _ (by simpa using he')]
        exact ih

/-- Get after the append branch of `mapSet`, same key. -/
theorem mapGet_append_single_self {α : Type} (m : List (String × α)) (k : String) (v : α)
    (h : m.any (fun kv => kv.1 = k) = false) :
    mapGet (m ++ [(k, v)]) k = some v := by
  induction m with
  | nil =>
    unfold mapGet
    rw [List.nil_append, List.find?_cons_of_pos _ (by simp)]
    rfl
  | cons e rest ih =>
    simp only [List.any_cons, Bool.or_eq_false_iff, decide_eq_false_iff_not] at h
    unfold mapGet at ih ⊢
    rw [List.cons_append, List.find?_cons_of_neg _ (by simpa using h.1)]
    exact ih (by simpa using h.2)

/-- Get after the append branch of `mapSet`, other key. -/
theorem mapGet_append_single_ne {α : Type} (m : List (String × α)) (k k' : String) (v : α)
    (h : k' ≠ k) : mapGet (m ++ [(k, v)]) k' = mapGet m k' := by
  induction m with
  | nil =>
    unfold mapGet
    rw [List.nil_append,
      List.find?_cons_of_neg _ (by simp only [decide_eq_true_eq]; exact fun hc => h hc.symm)]
  | cons e rest ih =>
    by_cases he : e.1 = k'
    · unfold mapGet
      rw [List.cons_append, List.find?_cons_of_pos _ (by simpa using he),
        List.find?_cons_of_pos _ (by simpa using he)]
    · unfold mapGet at ih ⊢
      rw [List.cons_append, List.find?_cons_of_neg _ (by simpa using he),
        List.find?_cons_of_neg _ (by simpa using he)]
      exact ih

theorem mapGet_mapSet_self {α : Type} (m : List (String × α)) (k : String) (v : α) :
    mapGet (mapSet m k v) k = some v := by
  unfold mapSet
  by_cases h : m.any (fun kv => kv.1 = k)
  · rw [if_pos h]; exact mapGet_map_update_self m k v h
  · rw [if_neg h]
    exact mapGet_append_single_self m k v (Bool.eq_false_iff.mpr h)

theorem mapGet_mapSet_ne {α : Type} (m : List (String × α)) (k k' : String) (v : α)
    (h : k' ≠ k) : mapGet (mapSet m k v) k' = mapGet m k' := by
  unfold mapSet
  by_cases ha : m.any (fun kv => kv.1 = k)
  · rw [if_pos ha]; exact mapGet_map_update_ne m k k' v h
  · rw [if_neg ha]; exact mapGet_append_single_ne m k k' v h

/-- If `findSessionKey` answers a key, that key is present in the sessions
map. -/
theorem findSessionKey_isSome (st : SessionStore) (x k : String)
    (h : findSessionKey st x = some k) : (mapGet st.sessions k).isSome := by
  unfold findSessionKey at h
  by_cases h1 : (mapGet st.sessions x).isSome
  · simp only [h1, if_true] at h
    cases h
    exact h1
  · simp only [h1, if_false] at h
    cases h2 : mapGet st.sessionsByName x with
    | none => rw [h2] at h; cases h
    | some id =>
      rw [h2] at h
      by_cases h3 : (mapGet st.sessions id).isSome
      · simp only [h3, if_true] at h
        cases h
        exact h3
      · simp only [h3, if_false] at h
        cases h

/-- `lookupSession` misses exactly when `findSessionKey` misses. -/
theorem lookupSession_none (st : SessionStore) (x : String)
    (h : lookupSession st x = none) : findSessionKey st x = none := by
  unfold lookupSession at h
  cases hk : findSessionKey st x with
  | none => rfl
  | some k =>
    rw [hk] at h
    have hs := findSessionKey_isSome st x k hk
    cases hg : mapGet st.sessions k with
    | none => rw [hg] at hs; cases hs
    | some s => simp [hg] at h

/-- Every entry scanned by the `evictOldest` fold has `lastUsedAt` at least
that of the result. -/
theorem foldl_pickOlder_min (pool : List (String × PooledContainer)) :
    ∀ (acc : Option (String × PooledContainer)) (r : String × PooledContainer),
      pool.foldl pickOlder acc = some r →
      (∀ o, acc = some o → r.2.lastUsedAt ≤ o.2.lastUsedAt) ∧
      (∀ x ∈ pool, r.2.lastUsedAt ≤ x.2.lastUsedAt) := by
  induction pool with
  | nil =>
    intro acc r h
    simp only [List.foldl_nil] at h
    subst h
    exact ⟨fun o ho => by cases ho; exact le_refl _, fun x hx => absurd hx (List.not_mem_nil x)⟩
  | cons e rest ih =>
    intro acc r h
    simp only [List.foldl_cons] at h
    obtain ⟨hacc, hrest⟩ := ih (pickOlder acc e) r h
    have he : r.2.lastUsedAt ≤ e.2.lastUsedAt := by
      cases hc : acc with
      | none => exact hacc e (by simp [pickOlder, hc])
      | some o =>
        by_cases hlt : e.2.lastUsedAt < o.2.lastUsedAt
        · exact hacc e (by simp [pickOlder, hc, hlt])
        · exact le_trans (hacc o (by simp [pickOlder, hc, hlt])) (Nat.le_of_not_lt hlt)
    refine ⟨?_, ?_⟩
    · intro o ho
      subst ho
      by_cases hlt : e.2.lastUsedAt < o.2.lastUsedAt
      · exact le_trans (hacc e (by simp [pickOlder, hlt])) (Nat.le_of_lt hlt)
      · exact hacc o (by simp [pickOlder, hlt])
    · intro x hx
      rcases List.mem_cons.mp hx with hx | hx
      · subst hx; exact he
      · exact hrest x hx

/-- Minimality of the evicted entry. -/
theorem evictOldestPick_min (pool : List (String × PooledContainer))
    (r : String × PooledContainer) (h : evictOldestPick pool = some r) :
    ∀ x ∈ pool, r.2.lastUsedAt ≤ x.2.lastUsedAt :=
  (foldl_pickOlder_min pool none r h).2

/-! ## Claim theorems -/

/-- Claim C1 (corrected): of the four boundary inputs, `".."`, `"%2e%2e/x"`
and `"%252e%252e/x"` make `sanitizePath` raise `PathSecurityError` (`Path
traversal pattern detected`), but `"/etc/passwd"` does not raise: its
leading slash is stripped and the sanitized path `"/workspace/etc/passwd"`
is returned. -/
theorem C1_sanitizePath_boundary_cases :
    sanitizePath ".." = .error "Path traversal pattern detected" ∧
    sanitizePath "%2e%2e/x" = .error "Path traversal pattern detected" ∧
    sanitizePath "%252e%252e/x" = .error "Path traversal pattern detected" ∧
    sanitizePath "/etc/passwd" = .ok "/workspace/etc/passwd" := by
  refine ⟨by decide, by decide, by decide, by decide⟩

/-- Claim C1, counterexample to the claim as stated: `sanitizePath`
applied to `"/etc/passwd"` returns a sanitized path instead of raising. -/
theorem C1_counterexample :
    sanitizePath "/etc/passwd" = .ok "/workspace/etc/passwd" := by decide

/-- The chunk length used in the C3 counterexample run: one byte above the
stdout cap plus the marker length. -/
def c3ChunkLen : Nat := MAX_STDOUT_SIZE + TRUNCATION_MESSAGE.length + 1

/-- A single demuxed stdout chunk of that length. -/
def c3BigChunk : String := String.mk (List.replicate c3ChunkLen 'a')

/-- Claim C3 (code bug): `executeWithTimeout` accumulates demuxed output
without consulting `MAX_STDOUT_SIZE`/`MAX_STDERR_SIZE` and never appends
`TRUNCATION_MESSAGE`: a run whose stdout stream delivers
`MAX_STDOUT_SIZE + TRUNCATION_MESSAGE.length + 1` bytes is returned intact,
exceeding the bound `MAX_STDOUT_SIZE + TRUNCATION_MESSAGE.length` that the
claim asserts for every exec, with no marker appended. -/
theorem C3_output_caps_not_enforced :
    (executeWithTimeoutOutput [(.stdout, c3BigChunk)]).1 = c3BigChunk ∧
    (executeWithTimeoutOutput [(.stdout, c3BigChunk)]).1.length >
      MAX_STDOUT_SIZE + TRUNCATION_MESSAGE.length := by
  have h1 : (executeWithTimeoutOutput [(.stdout, c3BigChunk)]).1 = c3BigChunk := by
    show ("" ++ c3BigChunk) = c3BigChunk
    exact String.ext (by simp [String.data_append])
  refine ⟨h1, ?_⟩
  rw [h1]
  have h2 : c3BigChunk.length = c3ChunkLen := by
    show (String.mk (List.replicate c3ChunkLen 'a')).length = c3ChunkLen
    simp [String.length]
  rw [h2]
  unfold c3ChunkLen
  omega

/-- The runtime adapter outcome used in the C5 run: `pip install` succeeds. -/
def c5RuntimeOk : InstallResult :=
  { success := true, cached := false, installedPackages := ["requests"], errors := [] }

/-- The initial cache state of the C5 run: no images, no hits or misses. -/
def c5State0 : CacheState := ⟨⟨[], 0⟩, 0, 0⟩

/-- First `install('python', ['requests'])`. -/
def c5Run1 : InstallResult × CacheState × Bool :=
  packageCacheInstall "python" ["requests"] c5RuntimeOk c5State0

/-- Second `install('python', ['requests'])`, on the state the first run
left behind. -/
def c5Run2 : InstallResult × CacheState × Bool :=
  packageCacheInstall "python" ["requests"] c5RuntimeOk c5Run1.2.1

/-- Claim C5 (code bug): the derived image name
`mcp-sandbox-<language>:<key-prefix>` is passed as the *tag* argument of
`Container.commit`, whose repo is `mcp-sandbox`; since the name contains a
colon it is not a valid Docker tag, so the commit step fails.  The first
install therefore reports `success: false` (after actually installing the
packages), and a second install with the same sorted package list misses
again and re-invokes the runtime package install — it never returns
`{success: true, cached: true}` as the claim states. -/
theorem C5_cache_commit_tag_mismatch :
    validDockerTag ("mcp-sandbox-python:" ++
      String.mk ((getCacheKey "python" ["requests"]).data.take 12)) = false ∧
    c5Run1.1.success = false ∧ c5Run1.1.cached = false ∧ c5Run1.2.2 = true ∧
    c5Run1.1.errors = ["Failed to commit container: invalid reference format"] ∧
    c5Run2.1.cached = false ∧ c5Run2.1.success = false ∧ c5Run2.2.2 = true := by
  refine ⟨by decide, by decide, by decide, by decide, by decide, by decide,
    by decide, by decide⟩

/-- Claim C7 (corrected): the severity inferred by `log` when none is given
is CRITICAL for SECURITY_VIOLATION, WARN for EXECUTE_BLOCKED and
PACKAGE_INSTALL_BLOCKED, ERROR for EXECUTE_ERROR and EXECUTE_TIMEOUT, and
for every other event type it is ERROR when the event is logged with
`success: false` and INFO otherwise. -/
theorem C7_inferred_severity (t : AuditEventType) (succ : Option Bool)
    (events : List AuditEvent) :
    ((auditLog events t ⟨none, succ⟩).1).severity =
      (if t = .SECURITY_VIOLATION then .CRITICAL
       else if t = .EXECUTE_BLOCKED ∨ t = .PACKAGE_INSTALL_BLOCKED then .WARN
       else if t = .EXECUTE_ERROR ∨ t = .EXECUTE_TIMEOUT then .ERROR
       else if succ = some false then .ERROR
       else .INFO) := by
  show (Option.getD none (inferSeverity t succ)) = _
  rw [Option.getD]
  rfl

/-- Claim C7, counterexample to the claim as stated: `FILE_READ` is none of
the special event types, so the claim predicts INFO, but logging it with
`success: false` and no explicit severity yields ERROR. -/
theorem C7_counterexample :
    ((auditLog [] .FILE_READ ⟨none, some false⟩).1).severity = .ERROR ∧
    AuditSeverity.ERROR ≠ AuditSeverity.INFO := by
  refine ⟨by decide, by decide⟩

/-- The `source` of the first blocklist pattern matching the code (the one
whose match `validateCode` reports). -/
def firstMatchedSource (blocklist : List JsPattern) (code : String) : String :=
  ((blocklist.find? (fun p => p.test code)).map (fun p => p.source)).getD ""

/-- An engine that answers every exec with empty output and exit 0. -/
def nullOracle : ExecOracle := fun _ => ⟨"", "", 0⟩

/-- Claim C2 (corrected): for every adapter, a source matching any pattern
of its blocklist makes `execute` raise an error before any container
command is issued — but the raised error is a plain `Error` produced by the
adapter's catch-all re-throw, whose message wraps the `SecurityError`
message; it is not itself a `SecurityError`. -/
theorem C2_blocklisted_source_raises_before_exec
    (lang : CodeLang) (code : String) (tp : TempParams) (o : ExecOracle)
    (h : (blocklistOf lang).any (fun p => p.test code) = true) :
    adapterExecute lang code tp o =
      (.error (.generic (execFailPrefix lang ++
        ("Dangerous pattern detected: " ++ firstMatchedSource (blocklistOf lang) code))),
       []) := by
  obtain ⟨p, hp⟩ :=
    Option.isSome_iff_exists.mp (List.find?_isSome.mpr (List.any_eq_true.mp h))
  have hv : validateCode (blocklistOf lang) code =
      .error (.security ("Dangerous pattern detected: " ++ p.source)) := by
    unfold validateCode
    rw [hp]
  have hf : firstMatchedSource (blocklistOf lang) code = p.source := by
    unfold firstMatchedSource
    rw [hp]
    rfl
  rw [hf]
  cases lang <;>
    simp only [blocklistOf] at hv <;>
    simp [adapterExecute, pythonExecute, typescriptExecute, javascriptExecute, goExecute,
      rustExecute, bashExecute, hv, execFailPrefix, JsError.message]

/-- Claim C2, witness: the Python adapter on `eval(x)`. -/
theorem C2_blocklisted_source_raises_before_exec_witness :
    adapterExecute .python "eval(x)" ⟨"0", "r", "1", "s"⟩ nullOracle =
      (.error (.generic (execFailPrefix .python ++
        ("Dangerous pattern detected: " ++
          firstMatchedSource (blocklistOf .python) "eval(x)"))),
       []) :=
  C2_blocklisted_source_raises_before_exec .python "eval(x)" ⟨"0", "r", "1", "s"⟩
    nullOracle (by decide)

/-- Claim C2, counterexample to the claim as stated: `eval(x)` matches the
Python blocklist and `execute` raises, but the raised error is a generic
`Error` (the catch-all wraps the `SecurityError`), not a `SecurityError`. -/
theorem C2_counterexample :
    pythonBlocklist.any (fun p => p.test "eval(x)") = true ∧
    pythonExecute "eval(x)" nullOracle =
      (.error (.generic "Python execution failed: Dangerous pattern detected: eval\\s*\\("),
       []) ∧
    JsError.isSecurity
      (.generic "Python execution failed: Dangerous pattern detected: eval\\s*\\(") = false := by
  refine ⟨by decide, by decide, by decide⟩

/-- Claim C9 (confirmed): a Go source with no package declaration and no
`func main()` is wrapped into `package main` with an injected
`import "fmt"` and the snippet indented line-by-line inside
`func main() { … }`; the wrapped program is written to the temp file and run
with `go run`; and a source that already contains `func main()` is not
wrapped in a new main function (only `package main` is prepended). -/
theorem C9_go_wrap_rule (code : String) (tp : TempParams) (o : ExecOracle)
    (hpkg : matchToks goPackageDeclToks code.data = false)
    (hmain : searchToks goFuncMainToks code.data = false)
    (hsafe : goBlocklist.any (fun p => p.test code) = false) :
    goWrapInMain code =
      "package main\n\nimport \"fmt\"\n\nfunc main() \x7b\n" ++
        indentLines "  " code ++ "\n\x7d" ∧
    (goExecute code tp o).2 =
      [.putFile (getTempFilePath tp.timestamp tp.rand ".go") (goWrapInMain code),
       .execCmd ["go", "run", getTempFilePath tp.timestamp tp.rand ".go"],
       .deleteFile (getTempFilePath tp.timestamp tp.rand ".go")] ∧
    (∀ code' : String, matchToks goPackageDeclToks code'.data = false →
       searchToks goFuncMainToks code'.data = true →
       goWrapInMain code' = "package main\n\n" ++ code') := by
  refine ⟨?_, ?_, ?_⟩
  · simp [goWrapInMain, hpkg, hmain]
  · have hv : validateCode goBlocklist code = .ok () := by
      unfold validateCode
      rw [List.find?_eq_none.mpr (List.any_eq_false.mp hsafe)]
    simp [goExecute, hv]
  · intro code' h1 h2
    simp [goWrapInMain, h1, h2]

/-- Claim C9, witness: the spec's own scenario `fmt.Println("hi")`. -/
theorem C9_go_wrap_rule_witness :
    goWrapInMain "fmt.Println(\"hi\")" =
      "package main\n\nimport \"fmt\"\n\nfunc main() \x7b\n" ++
        indentLines "  " "fmt.Println(\"hi\")" ++ "\n\x7d" :=
  (C9_go_wrap_rule "fmt.Println(\"hi\")" ⟨"0", "r", "1", "s"⟩ nullOracle
    (by decide) (by decide) (by decide)).1

/-- Claim C4 (corrected): `destroy` on an id (or name) that is not in the
session maps does not treat "already gone" as success — it raises
`Session not found`. -/
theorem C4_destroy_missing_session_raises (st : SessionStore) (sid : String)
    (now : Nat) (h : lookupSession st sid = none) :
    sessionDestroy st sid now = .error ("Session not found: " ++ sid) := by
  have hk := lookupSession_none st sid h
  unfold sessionDestroy sessionGetEntry
  rw [hk]

/-- Claim C4, witness: destroying in an empty store. -/
theorem C4_destroy_missing_session_raises_witness :
    sessionDestroy ⟨[], []⟩ "x" 0 = .error ("Session not found: " ++ "x") :=
  C4_destroy_missing_session_raises ⟨[], []⟩ "x" 0 (by decide)

/-- Claim C4, counterexample to the claim as stated: destroying a session
that is not present raises instead of completing successfully. -/
theorem C4_counterexample :
    sessionDestroy ⟨[], []⟩ "missing" 0 = .error "Session not found: missing" := by
  decide

/-- If `sanitizeCheck` returns a path, that path passed the workspace
check. -/
theorem sanitizeCheck_ok (resolved : List Char) (v : String)
    (h : sanitizeCheck resolved = .ok v) :
    v.data = WORKSPACE_ROOT.data ∨
      startsWithL (WORKSPACE_ROOT ++ "/").data v.data = true := by
  unfold sanitizeCheck at h
  split at h
  · rename_i hguard
    split at h
    · cases h
    · split at h
      · cases h
      · cases h
        exact hguard
  · cases h

/-- Claim C10 (confirmed): whenever `sanitizePath` returns a value, that
value equals `/workspace` or begins with `/workspace/`; and an absolute
path naming a location outside the workspace is silently re-rooted into
the workspace (its leading slashes stripped and the remainder resolved
against `/workspace`) rather than rejected or returned as-is —
`"/etc/passwd"` becomes `"/workspace/etc/passwd"`. -/
theorem C10_sanitizePath_reroots_into_workspace :
    (∀ (p v : String), sanitizePath p = .ok v →
       v.data = WORKSPACE_ROOT.data ∨
         startsWithL (WORKSPACE_ROOT ++ "/").data v.data = true) ∧
    sanitizePath "/etc/passwd" = .ok "/workspace/etc/passwd" := by
  constructor
  · intro p v h
    unfold sanitizePath at h
    split at h
    · cases h
    · split at h
      · cases h
      · exact sanitizeCheck_ok _ v h
  · decide

/-- Claim C10, witness: a relative path lands under the workspace. -/
theorem C10_sanitizePath_reroots_into_workspace_witness :
    ("/workspace/a.txt" : String).data = WORKSPACE_ROOT.data ∨
      startsWithL (WORKSPACE_ROOT ++ "/").data ("/workspace/a.txt" : String).data = true :=
  C10_sanitizePath_reroots_into_workspace.1 "a.txt" "/workspace/a.txt" (by decide)

/-- The failure-free engine/cleaner environment: no stop/remove or cleaner
call throws. -/
def noFail : String → Bool := fun _ => false

/-- The C6 scenario: three releases into an empty pool with
`maxActive = 2`, at increasing times. -/
def c6Release3 : PoolState × List String :=
  let r1 := poolRelease noFail noFail ⟨[], 2⟩ "c1" "python" 1
  let r2 := poolRelease noFail noFail r1.1 "c2" "python" 2
  let r3 := poolRelease noFail noFail r2.1 "c3" "python" 3
  (r3.1, r1.2 ++ r2.2 ++ r3.2)

/-- Claim C6 (confirmed): when `release` runs while the pool holds at least
`maxActive` entries (and the engine and cleaner calls succeed), the entry
picked by `evictOldest` — which has the smallest `lastUsedAt` in the pool —
is destroyed and removed before the released container is inserted; and in
the concrete scenario, releasing `c1, c2, c3` in order with `maxActive = 2`
leaves a pool of size 2 in which `c1` is no longer present, `c1` being the
one container destroyed. -/
theorem C6_release_evicts_lru :
    (∀ (ef cf : String → Bool) (st : PoolState) (cid lang : String) (now : Nat)
       (oid : String) (oe : PooledContainer),
       st.pool.length ≥ st.maxActive →
       evictOldestPick st.pool = some (oid, oe) →
       ef oid = false → cf cid = false →
       poolRelease ef cf st cid lang now =
         ({ st with pool := mapSet (mapDelete st.pool oid) cid (freshEntry lang now) },
          [oid]) ∧
       (∀ x ∈ st.pool, oe.lastUsedAt ≤ x.2.lastUsedAt)) ∧
    (c6Release3.1.pool.length = 2 ∧ mapGet c6Release3.1.pool "c1" = none ∧
     c6Release3.2 = ["c1"]) := by
  constructor
  · intro ef cf st cid lang now oid oe hfull hpick hef hcf
    constructor
    · simp [poolRelease, destroyContainer, hfull, hpick, hef, hcf]
    · exact evictOldestPick_min st.pool (oid, oe) hpick
  · refine ⟨by decide, by decide, by decide⟩

/-- The pooled entry of the C6 witness. -/
def c6WitnessEntry : PooledContainer :=
  { lang := "python", createdAt := 0, lastUsedAt := 0, useCount := 3, healthy := true }

/-- The pool of the C6 witness: one entry, `maxActive = 1`. -/
def c6WitnessState : PoolState := ⟨[("a", c6WitnessEntry)], 1⟩

/-- Claim C6, witness: releasing into a full pool evicts the single (hence
oldest) entry and inserts the released container. -/
theorem C6_release_evicts_lru_witness :
    poolRelease noFail noFail c6WitnessState "b" "python" 5 =
      ({ c6WitnessState with
          pool := mapSet (mapDelete c6WitnessState.pool "a") "b" (freshEntry "python" 5) },
       ["a"]) :=
  (C6_release_evicts_lru.1 noFail noFail c6WitnessState "b" "python" 5 "a" c6WitnessEntry
    (by decide) (by decide) rfl rfl).1

/-- The state a session is observed in (`state(s)` of the spec). -/
def stateOf (st : SessionStore) (sid : String) : Option SessionState :=
  (lookupSession st sid).map (fun s => s.state)

/-- The store after `pause(sid)` (unchanged when pause throws). -/
def afterPause (st : SessionStore) (sid : String) (now : Nat) : SessionStore :=
  match sessionPause st sid now with
  | .ok pr => pr.1
  | .error _ => st

/-- The store after `resume(sid)` (unchanged when resume throws). -/
def afterResume (st : SessionStore) (sid : String) (now : Nat) : SessionStore :=
  match sessionResume st sid now with
  | .ok pr => pr.1
  | .error _ => st

/-- Updating the sessions map at the key a lookup found keeps `get`
finding that key. -/
theorem findSessionKey_mapSet (st : SessionStore) (sid k : String) (v : Session)
    (hk : findSessionKey st sid = some k) :
    findSessionKey { st with sessions := mapSet st.sessions k v } sid = some k := by
  unfold findSessionKey at hk ⊢
  by_cases h1 : (mapGet st.sessions sid).isSome
  · simp only [h1, if_true] at hk
    cases hk
    have : (mapGet (mapSet st.sessions sid v) sid).isSome := by
      rw [mapGet_mapSet_self]
      rfl
    simp [this]
  · simp only [h1, if_false] at hk
    cases h2 : mapGet st.sessionsByName sid with
    | none => rw [h2] at hk; cases hk
    | some id =>
      rw [h2] at hk
      by_cases h3 : (mapGet st.sessions id).isSome
      · simp only [h3, if_true] at hk
        cases hk
        by_cases hsk : sid = k
        · subst hsk
          have : (mapGet (mapSet st.sessions sid v) sid).isSome := by
            rw [mapGet_mapSet_self]
            rfl
          simp [this]
        · have hne : (mapGet (mapSet st.sessions k v) sid).isSome = false := by
            rw [mapGet_mapSet_ne st.sessions k sid v hsk]
            simpa using h1
          have hself : (mapGet (mapSet st.sessions k v) k).isSome := by
            rw [mapGet_mapSet_self]
            rfl
          simp [hne, h2, hself]
      · simp only [h3, if_false] at hk
        cases hk

/-- The behavior of `pause` on a session found under key `k`: it returns
the updated store (with no engine call and an unchanged state when the
session was already paused, and one engine pause otherwise), and the entry
under `k` afterwards carries state `paused` and the refreshed
`lastUsedAt`. -/
theorem sessionPause_spec (st : SessionStore) (sid k : String) (s : Session) (now : Nat)
    (hk : findSessionKey st sid = some k) (hg : mapGet st.sessions k = some s) :
    sessionPause st sid now =
      .ok (afterPause st sid now,
           if s.state = .paused then [] else [.pause s.container]) ∧
    findSessionKey (afterPause st sid now) sid = some k ∧
    mapGet (afterPause st sid now).sessions k =
      some { s with lastUsedAt := now, state := .paused } := by
  have hstep : sessionPause st sid now =
      if s.state = .paused then
        .ok ({ st with sessions := mapSet st.sessions k { s with lastUsedAt := now } }, [])
      else
        .ok ({ st with sessions := mapSet (mapSet st.sessions k { s with lastUsedAt := now }) k { s with lastUsedAt := now, state := .paused } }, [.pause s.container]) := by
    unfold sessionPause sessionGetEntry
    by_cases hp : s.state = .paused <;> simp [hk, hg, hp]
  by_cases hp : s.state = .paused
  · have hA : afterPause st sid now =
        { st with sessions := mapSet st.sessions k { s with lastUsedAt := now } } := by
      unfold afterPause
      rw [hstep, if_pos hp]
    have hrec : ({ s with lastUsedAt := now } : Session) =
        { s with lastUsedAt := now, state := .paused } := by
      rw [← hp]
    refine ⟨?_, ?_, ?_⟩
    · rw [hstep, if_pos hp, hA, if_pos hp]
    · rw [hA]
      exact findSessionKey_mapSet st sid k _ hk
    · rw [hA, ← hrec]
      exact mapGet_mapSet_self st.sessions k _
  · have hA : afterPause st sid now =
        { st with sessions := mapSet (mapSet st.sessions k { s with lastUsedAt := now }) k { s with lastUsedAt := now, state := .paused } } := by
      unfold afterPause
      rw [hstep, if_neg hp]
    refine ⟨?_, ?_, ?_⟩
    · rw [hstep, if_neg hp, hA, if_neg hp]
    · rw [hA]
      exact findSessionKey_mapSet { st with sessions := mapSet st.sessions k { s with lastUsedAt := now } } sid k _ (findSessionKey_mapSet st sid k _ hk)
    · rw [hA]
      exact mapGet_mapSet_self _ k _

/-- The behavior of `resume` on a session found under key `k`: a no-op
(state unchanged, no engine call) unless the session is paused, in which
case one engine unpause is issued and the entry becomes active with a
refreshed `lastUsedAt`. -/
theorem sessionResume_spec (st : SessionStore) (sid k : String) (s : Session) (now : Nat)
    (hk : findSessionKey st sid = some k) (hg : mapGet st.sessions k = some s) :
    sessionResume st sid now =
      .ok (afterResume st sid now,
           if s.state = .paused then [.unpause s.container] else []) ∧
    findSessionKey (afterResume st sid now) sid = some k ∧
    mapGet (afterResume st sid now).sessions k =
      some { s with lastUsedAt := now,
                    state := if s.state = .paused then .active else s.state } := by
  have hstep : sessionResume st sid now =
      if s.state = .paused then
        .ok ({ st with sessions := mapSet (mapSet st.sessions k { s with lastUsedAt := now }) k { s with lastUsedAt := now, state := .active } }, [.unpause s.container])
      else
        .ok ({ st with sessions := mapSet st.sessions k { s with lastUsedAt := now } }, []) := by
    unfold sessionResume sessionGetEntry
    by_cases hp : s.state = .paused <;> simp [hk, hg, hp]
  by_cases hp : s.state = .paused
  · have hA : afterResume st sid now =
        { st with sessions := mapSet (mapSet st.sessions k { s with lastUsedAt := now }) k { s with lastUsedAt := now, state := .active } } := by
      unfold afterResume
      rw [hstep, if_pos hp]
    refine ⟨?_, ?_, ?_⟩
    · rw [hstep, if_pos hp, hA, if_pos hp]
    · rw [hA]
      exact findSessionKey_mapSet { st with sessions := mapSet st.sessions k { s with lastUsedAt := now } } sid k _ (findSessionKey_mapSet st sid k _ hk)
    · rw [hA, if_pos hp]
      exact mapGet_mapSet_self _ k _
  · have hA : afterResume st sid now =
        { st with sessions := mapSet st.sessions k { s with lastUsedAt := now } } := by
      unfold afterResume
      rw [hstep, if_neg hp]
    have hrec : ({ s with lastUsedAt := now } : Session) =
        { s with lastUsedAt := now,
                 state := if s.state = .paused then .active else s.state } := by
      rw [if_neg hp]
    refine ⟨?_, ?_, ?_⟩
    · rw [hstep, if_neg hp, hA, if_neg hp]
    · rw [hA]
      exact findSessionKey_mapSet st sid k _ hk
    · rw [hA, ← hrec]
      exact mapGet_mapSet_self st.sessions k _

/-- Claim C8 (confirmed): for every session present in the store, pausing
and then resuming leaves it `active`; `pause` on an already-paused session
is a no-op (state unchanged, no engine pause issued); `resume` on a
session that is not paused is a no-op (state unchanged, no engine unpause
issued). -/
theorem C8_pause_resume_roundtrip (st : SessionStore) (sid : String)
    (now1 now2 : Nat) (s : Session) (h : lookupSession st sid = some s) :
    stateOf (afterResume (afterPause st sid now1) sid now2) sid = some .active ∧
    (s.state = .paused →
      sessionPause st sid now1 = .ok (afterPause st sid now1, []) ∧
      stateOf (afterPause st sid now1) sid = some s.state) ∧
    (s.state ≠ .paused →
      sessionResume st sid now1 = .ok (afterResume st sid now1, []) ∧
      stateOf (afterResume st sid now1) sid = some s.state) := by
  obtain ⟨k, hk⟩ : ∃ k, findSessionKey st sid = some k := by
    cases hfk : findSessionKey st sid with
    | none => unfold lookupSession at h; rw [hfk] at h; cases h
    | some k => exact ⟨k, rfl⟩
  have hg : mapGet st.sessions k = some s := by
    unfold lookupSession at h
    rw [hk] at h
    simpa using h
  have hpause := sessionPause_spec st sid k s now1 hk hg
  have hresume2 := sessionResume_spec (afterPause st sid now1) sid k
    { s with lastUsedAt := now1, state := .paused } now2 hpause.2.1 hpause.2.2
  refine ⟨?_, ?_, ?_⟩
  · simp [stateOf, lookupSession, hresume2.2.1, hresume2.2.2]
  · intro hp
    refine ⟨by rw [hpause.1, if_pos hp], ?_⟩
    simp [stateOf, lookupSession, hpause.2.1, hpause.2.2, hp]
  · intro hp
    have hresume1 := sessionResume_spec st sid k s now1 hk hg
    refine ⟨by rw [hresume1.1, if_neg hp], ?_⟩
    simp [stateOf, lookupSession, hresume1.2.1, hresume1.2.2, hp]

/-- The session of the C8 witness. -/
def c8Session : Session :=
  { id := "id1", name := "demo", container := "cont1", state := .active,
    lastUsedAt := 0, expiresAt := none }

/-- The store of the C8 witness: one active session, addressable by name. -/
def c8Store : SessionStore := ⟨[("id1", c8Session)], [("demo", "id1")]⟩

/-- Claim C8, witness: pausing and resuming the demo session by name
leaves it active. -/
theorem C8_pause_resume_roundtrip_witness :
    stateOf (afterResume (afterPause c8Store "demo" 1) "demo" 2) "demo" =
      some .active :=
  (C8_pause_resume_roundtrip c8Store "demo" 1 2 c8Session (by decide)).1
